import Mathlib

/-!
Verification of the fr-bridge synchronization engine (src/bridge.py).

The Python source is shallowly embedded: each DatabaseManager / DeviceClient /
SyncManager method that the claims touch is translated into a pure Lean
function over explicit state (database tables are lists of row structures,
exceptions are Option / Except, the SQLite connection is the threaded value).
External library calls that the engine only passes data through
(datetime.fromtimestamp(..).strftime, strptime(..).timestamp) are taken as
function parameters of the embedding; uuid4 id generation is modelled by a
fresh identifier derived from the current table length (ids never influence
control flow in the source).
-/

namespace Bridge

/-! ## Python primitives used by the source -/

/-- Default whitespace set of Python str.strip (ASCII part; the source only
ever strips device responses and numeric strings, which are ASCII). -/
def pyWhitespace (c : Char) : Bool :=
  c = ' ' || c = '\t' || c = '\n' || c = '\r' || c = '\x0b' || c = '\x0c'

/-- Python str.strip(): drop leading and trailing whitespace. -/
def pyStrip (s : String) : String :=
  String.mk (((s.toList.dropWhile pyWhitespace).reverse.dropWhile pyWhitespace).reverse)

/-- Python int(str): optional surrounding whitespace, optional single sign,
then a nonempty digit run; anything else raises ValueError, modelled as none.
(Underscore digit grouping of Python 3 literals is not modelled; no input in
this code base contains it.) -/
def pyInt (s : String) : Option Int :=
  let t := (pyStrip s).toList
  let signed : Int × List Char :=
    match t with
    | '-' :: rest => (-1, rest)
    | '+' :: rest => (1, rest)
    | _ => (1, t)
  match signed with
  | (sign, digits) =>
    if digits ≠ [] ∧ digits.all Char.isDigit then
      some (sign * (digits.foldl (fun a c => a * 10 + (c.toNat - 48)) 0 : Nat))
    else none

/-- Python dict .get(k) over the insertion-ordered field list produced by the
wire parser (keys are unique by construction of the parser). -/
def pyGet (l : List (String × String)) (k : String) : Option String :=
  (l.find? (fun p => p.1 == k)).map (·.2)

/-! ## Wire-format parser (DeviceClient._parseKeyValueResponse) -/

/-- One parsed record: the per-index field dictionary, insertion ordered. -/
abbrev RawLog := List (String × String)

/-- dict assignment records[idx][field] = value for the inner field dict:
an existing key is updated in place, a new key is appended. -/
def setField (fields : RawLog) (k v : String) : RawLog :=
  if fields.any (fun p => p.1 == k) then
    fields.map (fun p => if p.1 == k then (k, v) else p)
  else fields ++ [(k, v)]

/-- Outer dict update records[idx][field] = value with lazy bucket creation
(a fresh empty dict is installed when record_idx is not yet a key). -/
def setRecord (recs : List (Int × RawLog)) (idx : Int) (k v : String) :
    List (Int × RawLog) :=
  if recs.any (fun r => r.1 == idx) then
    recs.map (fun r => if r.1 == idx then (r.1, setField r.2 k v) else r)
  else recs ++ [(idx, [(k, v)])]

/-- Python str.split(sep) for a one-character separator: every occurrence
splits, empty pieces are kept, the empty string yields one empty piece. -/
def pySplitCharAux (sep : Char) : List Char → List Char → List String
  | [], acc => [String.mk acc.reverse]
  | c :: cs, acc =>
    if c = sep then String.mk acc.reverse :: pySplitCharAux sep cs []
    else pySplitCharAux sep cs (c :: acc)

def pySplitChar (sep : Char) (s : String) : List String :=
  pySplitCharAux sep s.toList []

/-- Substring test for the needle of a closing bracket followed by a dot,
as the source tests with the in operator. -/
def hasCloseDot : List Char → Bool
  | [] => false
  | [_] => false
  | a :: b :: rest => (a = ']' && b = '.') || hasCloseDot (b :: rest)

def containsCloseDot (k : String) : Bool :=
  hasCloseDot k.toList

/-- line.split('=', 1) guarded by '=' in line: none when the line holds
no '=', otherwise key and the untouched remainder. -/
def splitFirstEq (line : String) : Option (String × String) :=
  match pySplitChar '=' line with
  | [] => none
  | [_] => none
  | k :: rest => some (k, String.intercalate "=" rest)

/-- The bracketed index substring key[key.find('[')+1 : key.find(']')]. -/
def bracketIndexStr (k : String) : String :=
  let l := k.toList
  let si := (l.findIdx (fun c => c = '[')) + 1
  let ei := l.findIdx (fun c => c = ']')
  String.mk ((l.drop si).take (ei - si))

/-- key.split('.', 1)[1]: everything after the first dot. -/
def afterFirstDot (k : String) : String :=
  String.intercalate "." (pySplitChar '.' k).tail

/-- Processing of one response line against the accumulated record buckets.
none models the uncaught ValueError from int() on a non-integer bracketed
index; every other non-matching line is skipped. -/
def parseLine (recs : List (Int × RawLog)) (line : String) :
    Option (List (Int × RawLog)) :=
  match splitFirstEq line with
  | none => some recs
  | some (k, v) =>
    if "records[".toList.isPrefixOf k.toList && containsCloseDot k then
      match pyInt (bracketIndexStr k) with
      | none => none
      | some n => some (setRecord recs n (afterFirstDot k) v)
    else some recs

def parseLinesAux : List String → List (Int × RawLog) → Option (List (Int × RawLog))
  | [], recs => some recs
  | l :: ls, recs =>
    match parseLine recs l with
    | none => none
    | some r => parseLinesAux ls r

/-- The index buckets in insertion order of first appearance, as built by
DeviceClient._parseKeyValueResponse before list(records.values()). -/
def parseKeyValueBuckets (response : String) : Option (List (Int × RawLog)) :=
  parseLinesAux (pySplitChar '\n' (pyStrip response)) []

/-- DeviceClient._parseKeyValueResponse: list(records.values()), i.e. the
field dictionaries with the integer indices dropped. none models the
ValueError escaping the method. -/
def parseKeyValueResponse (response : String) : Option (List RawLog) :=
  (parseKeyValueBuckets response).map (fun recs => recs.map (·.2))

/-- DeviceClient.getOfflineAccessLogs, with the transport abstracted to the
response it yields: a missing (None) or empty (falsy) response gives [], a
present response is parsed, and any exception inside the try block — in
particular the parser ValueError — is caught and gives []. -/
def getOfflineAccessLogs (response : Option String) : List RawLog :=
  match response with
  | none => []
  | some r =>
    if r = "" then []
    else
      match parseKeyValueResponse r with
      | none => []
      | some logs => logs

/-! ## Face-template sync ledger (DatabaseManager.markFaceTemplateSynced) -/

/-- One row of the faceTemplates tracking table; id is the INTEGER PRIMARY
KEY, syncedDevices the JSON-decoded device-name list. -/
structure TemplateRow where
  id : Nat
  syncedDevices : List String
deriving Repr, DecidableEq

/-- SELECT .. FROM faceTemplates WHERE id = ? followed by fetchone: the
first row with the given id. -/
def findTemplate (L : List TemplateRow) (tid : Nat) : Option TemplateRow :=
  L.find? (fun r => r.id == tid)

/-- DatabaseManager.markFaceTemplateSynced: read the current syncedDevices
of the row (no row: do nothing), and only when deviceName is absent append
it and write the updated list back with UPDATE .. WHERE id = ?. -/
def markFaceTemplateSynced (L : List TemplateRow) (tid : Nat) (dev : String) :
    List TemplateRow :=
  match findTemplate L tid with
  | none => L
  | some r =>
    if dev ∈ r.syncedDevices then L
    else L.map (fun q =>
      if q.id == tid then { q with syncedDevices := r.syncedDevices ++ [dev] } else q)

/-! ## Push flow (SyncManager.syncUsersToDevices, template part)

The flow loads the template snapshot once (getUnsyncedFaceTemplates, which
reports each ledger row id together with its current syncedDevices), then for
every device and every snapshot template whose snapshot syncedDevices does
not contain the device name calls enrollFaceTemplate and, on success,
markFaceTemplateSynced. enroll is the device-acknowledgement predicate of
enrollFaceTemplate (transport failures return false there). The user
enrollment loop writes nothing to the ledger and is dropped from the state. -/

def pushTemplateStep (enroll : String → Nat → Bool) (dev : String)
    (led : List TemplateRow) (t : TemplateRow) : List TemplateRow :=
  if dev ∈ t.syncedDevices then led
  else if enroll dev t.id then markFaceTemplateSynced led t.id dev
  else led

def syncTemplatesToDevice (enroll : String → Nat → Bool)
    (snapshot : List TemplateRow) (dev : String) (led : List TemplateRow) :
    List TemplateRow :=
  snapshot.foldl (pushTemplateStep enroll dev) led

/-- SyncManager.syncUsersToDevices acting on the template ledger: snapshot
the templates once, then visit the devices in registry order. -/
def syncUsersToDevices (enroll : String → Nat → Bool) (devices : List String)
    (L : List TemplateRow) : List TemplateRow :=
  devices.foldl (fun led dev => syncTemplatesToDevice enroll L dev led) L

/-! ## Access-log store (DatabaseManager.saveDeviceAccessLogs) -/

/-- One row of the accesslogs table, with the columns of the CREATE TABLE. -/
structure LogRow where
  id : String
  cardid : String
  datetime : String
  terminalid : String
  terminalip : String
  doorid : String
  termdoor : String
  in_out : Int
  verifysource : Int
  funckey : Int
  verifystatus : Int
  eventcode : String
  userid : String
deriving Repr, DecidableEq

/-- The connection parameters of one DeviceClient that the log writer reads. -/
structure DeviceInfo where
  name : String
  terminalId : String
  ip : String
deriving Repr, DecidableEq

/-- The field mapping of one raw log inside the per-record try block of
saveDeviceAccessLogs, up to but excluding the duplicate check. nowStr is
datetime.datetime.now() formatted, fmt is
datetime.fromtimestamp(..).strftime of the source, idStr the generated
uuid. none models a ValueError from int() on CreateTime, Method or Status
(all raised before the duplicate check in the source).

rowDatetime is the CreateTime handling: a truthy CreateTime is parsed by
int() (which may raise) and formatted, otherwise the current time is
used. -/
def rowDatetime (nowStr : String) (fmt : Int → String) (log : RawLog) :
    Option String :=
  match pyGet log "CreateTime" with
  | some ct => if ct ≠ "" then (pyInt ct).map fmt else some nowStr
  | none => some nowStr

/-- int(log.get(k, 0)): an absent key defaults to the integer 0, a present
value is parsed by int() and may raise (none). -/
def intField (log : RawLog) (k : String) : Option Int :=
  match pyGet log k with
  | none => some 0
  | some s => pyInt s

def mkRow (client : DeviceInfo) (nowStr : String) (fmt : Int → String)
    (idStr : String) (log : RawLog) : Option LogRow :=
  match rowDatetime nowStr fmt log with
  | none => none
  | some dtStr =>
    match intField log "Method" with
    | none => none
    | some vs =>
      match intField log "Status" with
      | none => none
      | some vst =>
        let cardId := (pyGet log "CardNo").getD ""
        let doorId := (pyGet log "Door").getD ""
        let logType := (pyGet log "Type").getD ""
        some { id := idStr
               cardid := cardId
               datetime := dtStr
               terminalid := client.terminalId
               terminalip := client.ip
               doorid := doorId
               termdoor := client.terminalId ++ ":" ++ doorId
               in_out := if logType = "Entry" then 1 else if logType = "Exit" then 2 else 0
               verifysource := vs
               funckey := 0
               verifystatus := vst
               eventcode := ""
               userid := (pyGet log "UserID").getD "" }

/-- The duplicate predicate of the SELECT id FROM accesslogs WHERE
terminalid = ? AND datetime = ? AND cardid = ? check. -/
def sameKey (a b : LogRow) : Bool :=
  a.terminalid == b.terminalid && a.datetime == b.datetime && a.cardid == b.cardid

/-- One iteration of the log loop: per-record exception skips the record,
a duplicate by dedup key is skipped with continue, otherwise the row is
inserted and savedCount incremented (rowcount of an INSERT is 1). -/
def saveStep (client : DeviceInfo) (nowStr : String) (fmt : Int → String)
    (st : List LogRow × Nat) (log : RawLog) : List LogRow × Nat :=
  match mkRow client nowStr fmt ("log-" ++ toString st.1.length) log with
  | none => st
  | some row =>
    if st.1.any (fun r => sameKey r row) then st
    else (st.1 ++ [row], st.2 + 1)

/-- DatabaseManager.saveDeviceAccessLogs: early 0 for an empty batch, else
the log loop over the connection state; returns the new table contents and
savedCount. -/
def saveDeviceAccessLogs (db : List LogRow) (client : DeviceInfo)
    (logs : List RawLog) (nowStr : String) (fmt : Int → String) :
    List LogRow × Nat :=
  if logs.isEmpty then (db, 0)
  else logs.foldl (saveStep client nowStr fmt) (db, 0)

/-! ## Last-synced time (DatabaseManager.getLastSyncedLogTime) -/

/-- SELECT MAX(datetime) FROM accesslogs WHERE terminalid = ?: the maximum
of the datetime strings under the binary collation, NULL when no row
qualifies. -/
def maxDtStep (acc : Option String) (r : LogRow) : Option String :=
  match acc with
  | none => some r.datetime
  | some m => some (max m r.datetime)

def maxDatetime (db : List LogRow) (term : String) : Option String :=
  (db.filter (fun r => r.terminalid == term)).foldl maxDtStep none

/-- DatabaseManager.getLastSyncedLogTime: a NULL or falsy (empty) or
sentinel never-value gives None; otherwise the strptime/timestamp
conversion, whose failure also gives None — parse packages that library
conversion (strptime raising maps to none). -/
def getLastSyncedLogTime (db : List LogRow) (term : String)
    (parse : String → Option Int) : Option Int :=
  match maxDatetime db term with
  | none => none
  | some m =>
    if m ≠ "" ∧ m ≠ "0000-00-00 00:00:00" then parse m else none

/-! ## Pull flow (SyncManager.syncLogsFromDevices) -/

/-- One row of the append-only syncLogs audit table. -/
structure SyncRecord where
  syncType : String
  deviceName : Option String
  recordsSynced : Nat
  status : String
  errorMessage : Option String
  timestamp : String
deriving Repr, DecidableEq

/-- DatabaseManager.logSyncOperation: append-only insert. -/
def logSyncOperation (trail : List SyncRecord) (r : SyncRecord) :
    List SyncRecord :=
  trail ++ [r]

/-- The mutable state the pull flow threads: the accesslogs table, the
syncLogs audit trail and the totalLogsSaved counter. -/
structure PullState where
  db : List LogRow
  trail : List SyncRecord
  totalLogsSaved : Nat
deriving Repr, DecidableEq

/-- The per-device try/except body of syncLogsFromDevices. fetch is the
device call (getOfflineAccessLogs plus everything else inside the try that
can raise), given the incremental window start and end; an Except.error is
the exception path, answered by an error audit record with zero records
and the message, a nonempty result is saved and answered by a success
record with the saved count, an empty result writes nothing. -/
def pullFromDevice (fetch : DeviceInfo → Option Int → Int → Except String (List RawLog))
    (parse : String → Option Int) (fmt : Int → String) (nowE : Int) (nowS : String)
    (st : PullState) (d : DeviceInfo) : PullState :=
  match fetch d (getLastSyncedLogTime st.db d.terminalId parse) nowE with
  | .error msg =>
    { st with trail :=
        logSyncOperation st.trail ⟨"logs_from_device", some d.name, 0, "error", some msg, nowS⟩ }
  | .ok logs =>
    if logs.isEmpty then st
    else
      let res := saveDeviceAccessLogs st.db d logs nowS fmt
      { db := res.1
        trail :=
          logSyncOperation st.trail ⟨"logs_from_device", some d.name, res.2, "success", none, nowS⟩
        totalLogsSaved := st.totalLogsSaved + res.2 }

/-- SyncManager.syncLogsFromDevices: every active device in registry order,
each inside its own try/except. -/
def syncLogsFromDevices (fetch : DeviceInfo → Option Int → Int → Except String (List RawLog))
    (parse : String → Option Int) (fmt : Int → String) (nowE : Int) (nowS : String)
    (devices : List DeviceInfo) (st : PullState) : PullState :=
  devices.foldl (pullFromDevice fetch parse fmt nowE nowS) st

/-! ## User union query (DatabaseManager.getUnsyncedUsers) -/

/-- One row of the student table. -/
structure StudentRow where
  matrix_no : String
  name : String
  registration_date : String
deriving Repr, DecidableEq

/-- One row of the new_employee table. -/
structure EmployeeRow where
  id : Nat
  name : String
  empid : String
  app_date : String
deriving Repr, DecidableEq

/-- The CMS database as the query sees it: a missing table (schema drift)
is none and makes the corresponding SELECT raise, which the source turns
into an empty contribution. -/
structure CmsDb where
  student : Option (List StudentRow)
  employee : Option (List EmployeeRow)

/-- The canonical user dictionary built by getUnsyncedUsers; the id is the
source-scoped key (matrix_no for students, the integer row id for
employees). -/
structure UserRec where
  id : String ⊕ Nat
  name : String
  role : String
  photoPath : String
  cardNumber : String
  registrationDate : String
deriving Repr, DecidableEq

/-- Python truthiness of the optional epoch bounds: None and 0 are falsy. -/
def truthy : Option Int → Bool
  | none => false
  | some n => !(n == 0)

/-- The student SELECT with its window branches: BETWEEN for
startTime and endTime, >= for startTime alone, otherwise unfiltered.
fmt is datetime.fromtimestamp(..).strftime of the source; BETWEEN and >=
compare the stored text under the binary collation. -/
def studentSelect (fmt : Int → String) (st en : Option Int)
    (rows : List StudentRow) : List StudentRow :=
  if truthy st && truthy en then
    rows.filter (fun r =>
      decide (fmt (st.getD 0) ≤ r.registration_date) &&
      decide (r.registration_date ≤ fmt (en.getD 0)))
  else if truthy st then
    rows.filter (fun r => decide (fmt (st.getD 0) ≤ r.registration_date))
  else rows

/-- The employee SELECT: only the both-bounds BETWEEN branch exists in the
source. -/
def employeeSelect (fmt : Int → String) (st en : Option Int)
    (rows : List EmployeeRow) : List EmployeeRow :=
  if truthy st && truthy en then
    rows.filter (fun r =>
      decide (fmt (st.getD 0) ≤ r.app_date) &&
      decide (r.app_date ≤ fmt (en.getD 0)))
  else rows

def rowToStudentUser (r : StudentRow) : UserRec :=
  { id := Sum.inl r.matrix_no
    name := r.name
    role := "student"
    photoPath := ""
    cardNumber := r.matrix_no
    registrationDate := r.registration_date }

def rowToEmployeeUser (r : EmployeeRow) : UserRec :=
  { id := Sum.inr r.id
    name := r.name
    role := "employee"
    photoPath := ""
    cardNumber := r.empid
    registrationDate := r.app_date }

/-- DatabaseManager.getUnsyncedUsers: students then employees, each source
inside a try/except that turns a missing table into no contribution. -/
def getUnsyncedUsers (db : CmsDb) (fmt : Int → String) (st en : Option Int) :
    List UserRec :=
  (match db.student with
   | none => []
   | some rows => (studentSelect fmt st en rows).map rowToStudentUser) ++
  (match db.employee with
   | none => []
   | some rows => (employeeSelect fmt st en rows).map rowToEmployeeUser)

/-! ## Shared concrete instances for witnesses and counterexamples -/

def exDevice : DeviceInfo := ⟨"Door-1", "T1", "10.0.0.1"⟩

/-- A concrete stand-in for datetime.fromtimestamp(..).strftime. -/
def exFmt : Int → String := fun n => "1970-01-01 00:00:0" ++ toString n

def exGoodLog : RawLog :=
  [("CreateTime", "1"), ("CardNo", "C1"), ("Type", "Entry"), ("Method", "15"), ("Status", "1")]

def exBadMethodLog : RawLog :=
  [("CreateTime", "1"), ("CardNo", "C2"), ("Method", "abc"), ("Status", "1")]

def exBadStatusLog : RawLog :=
  [("CreateTime", "1"), ("CardNo", "C4"), ("Method", "1"), ("Status", "xyz")]

/-- A concrete stand-in for the timestamp-to-date formatting. -/
def exDateFmt : Int → String := fun n => if n == 1 then "2024-01-01" else "2024-12-31"

def exStudents : List StudentRow :=
  [⟨"s1", "Sam", "2024-01-05"⟩, ⟨"s2", "Tim", "2023-01-05"⟩]

def exEmployees : List EmployeeRow := [⟨7, "Eve", "E7", "2024-02-01"⟩]

def exCms : CmsDb := ⟨some exStudents, some exEmployees⟩

def exLogDb : List LogRow :=
  [⟨"id0", "C1", "2024-01-02 03:04:05", "T1", "ip", "1", "T1:1", 1, 15, 0, 1, "", ""⟩]

def exLedger : List TemplateRow := [⟨1, []⟩, ⟨2, ["devA"]⟩]

/-- A device-acknowledgement oracle that always reports success. -/
def exEnroll : String → Nat → Bool := fun _ _ => true

end Bridge

namespace Bridge

/-! ## Theorems -/

/-- C4: the wire parser, on the response text
records[0].CardNo=CARD1, records[0].Type=Entry, records[1].CardNo=CARD2
(newline separated), accumulates fields of equal indices into one bucket
each and yields exactly two records, for indices 0 and 1, with those
fields, in insertion order of first appearance. -/
theorem parseKeyValueResponse_example :
    parseKeyValueBuckets "records[0].CardNo=CARD1\nrecords[0].Type=Entry\nrecords[1].CardNo=CARD2\n"
      = some [(0, [("CardNo", "CARD1"), ("Type", "Entry")]),
              (1, [("CardNo", "CARD2")])] ∧
    parseKeyValueResponse "records[0].CardNo=CARD1\nrecords[0].Type=Entry\nrecords[1].CardNo=CARD2\n"
      = some [[("CardNo", "CARD1"), ("Type", "Entry")],
              [("CardNo", "CARD2")]] :=
  ⟨rfl, rfl⟩

/-- C5 counterexample: on a response whose first line has a records[ key
with a non-integer bracketed index, the parser does not ignore the line and
return the remaining record, as the claim states; the int() call raises
(modelled by none). -/
theorem parseKeyValueResponse_badIndex_raises :
    parseKeyValueResponse "records[zz].F=v\nrecords[0].CardNo=C1"
      ≠ some [[("CardNo", "C1")]] ∧
    parseKeyValueResponse "records[zz].F=v\nrecords[0].CardNo=C1" = none :=
  ⟨by decide, rfl⟩

/-- C5 amended: a line without an equals sign and a summary-counter line are
ignored and the remaining matching lines still yield their records; but a
key with the records[ prefix and a bracket-dot yet a non-integer bracketed
index raises inside the parser, and getOfflineAccessLogs catches that
exception and returns the empty list instead of the remaining records. -/
theorem parseKeyValueResponse_skips_nonmatching :
    parseKeyValueResponse "junk line\ntotalCount=2\nrecords[0].CardNo=C1\n"
      = some [[("CardNo", "C1")]] ∧
    parseKeyValueResponse "records[0].CardNo=C1\nrecords[1x].F=v\n" = none ∧
    getOfflineAccessLogs (some "records[0].CardNo=C1\nrecords[1x].F=v\n") = [] :=
  ⟨rfl, rfl, rfl⟩

/-- C10: markFaceTemplateSynced for a templateId with no ledger row returns
normally and writes nothing: the ledger is unchanged. -/
theorem markFaceTemplateSynced_missing_row (L : List TemplateRow) (tid : Nat)
    (dev : String) (h : findTemplate L tid = none) :
    markFaceTemplateSynced L tid dev = L := by
  unfold markFaceTemplateSynced
  rw [h]

/-- Witness for C10 at a concrete ledger without the requested row. -/
theorem markFaceTemplateSynced_missing_row_witness :
    markFaceTemplateSynced [⟨1, ["devA"]⟩] 2 "devB" = [⟨1, ["devA"]⟩] :=
  markFaceTemplateSynced_missing_row [⟨1, ["devA"]⟩] 2 "devB" (by decide)

/-- C7: in the pull flow, a device whose fetch raises contributes exactly
one error audit record carrying zero records and the message, leaves the
log store untouched, and the remaining devices run exactly as a normal
flow continued from that state; a device whose fetch succeeds with a
nonempty batch saves it and appends a success record with the saved count. -/
theorem syncLogsFromDevices_isolates_failures
    (fetch : DeviceInfo → Option Int → Int → Except String (List RawLog))
    (parse : String → Option Int) (fmt : Int → String) (nowE : Int) (nowS : String)
    (pre post : List DeviceInfo) (dbad : DeviceInfo) (msg : String) (st0 : PullState)
    (stg : PullState) (dgood : DeviceInfo) (goodLogs : List RawLog)
    (hbad : ∀ last, fetch dbad last nowE = .error msg)
    (hgood : fetch dgood (getLastSyncedLogTime stg.db dgood.terminalId parse) nowE
      = .ok goodLogs)
    (hne : goodLogs ≠ []) :
    syncLogsFromDevices fetch parse fmt nowE nowS (pre ++ dbad :: post) st0 =
      syncLogsFromDevices fetch parse fmt nowE nowS post
        { syncLogsFromDevices fetch parse fmt nowE nowS pre st0 with
          trail := (syncLogsFromDevices fetch parse fmt nowE nowS pre st0).trail ++
            [⟨"logs_from_device", some dbad.name, 0, "error", some msg, nowS⟩] } ∧
    pullFromDevice fetch parse fmt nowE nowS stg dgood =
      { db := (saveDeviceAccessLogs stg.db dgood goodLogs nowS fmt).1
        trail := stg.trail ++
          [⟨"logs_from_device", some dgood.name,
            (saveDeviceAccessLogs stg.db dgood goodLogs nowS fmt).2, "success", none, nowS⟩]
        totalLogsSaved :=
          stg.totalLogsSaved + (saveDeviceAccessLogs stg.db dgood goodLogs nowS fmt).2 } := by
  constructor
  · unfold syncLogsFromDevices
    rw [List.foldl_append, List.foldl_cons]
    unfold pullFromDevice
    rw [hbad]
    rfl
  · unfold pullFromDevice
    rw [hgood]
    simp [hne, logSyncOperation]

/-- Witness for C7: a concrete two-device registry where the first device
raises and the second returns one fresh log. -/
theorem syncLogsFromDevices_isolates_failures_witness :
    syncLogsFromDevices
        (fun d _ _ => if d.name == "bad" then .error "boom" else .ok [exGoodLog])
        (fun _ => some 0) exFmt 7 "now" ([] ++ ⟨"bad", "TB", "ip"⟩ :: [⟨"good", "TG", "ip"⟩])
        ⟨[], [], 0⟩ =
      syncLogsFromDevices
        (fun d _ _ => if d.name == "bad" then .error "boom" else .ok [exGoodLog])
        (fun _ => some 0) exFmt 7 "now" [⟨"good", "TG", "ip"⟩]
        { syncLogsFromDevices
            (fun d _ _ => if d.name == "bad" then .error "boom" else .ok [exGoodLog])
            (fun _ => some 0) exFmt 7 "now" [] ⟨[], [], 0⟩ with
          trail := (syncLogsFromDevices
            (fun d _ _ => if d.name == "bad" then .error "boom" else .ok [exGoodLog])
            (fun _ => some 0) exFmt 7 "now" [] ⟨[], [], 0⟩).trail ++
            [⟨"logs_from_device", some "bad", 0, "error", some "boom", "now"⟩] } ∧
    pullFromDevice
        (fun d _ _ => if d.name == "bad" then .error "boom" else .ok [exGoodLog])
        (fun _ => some 0) exFmt 7 "now" ⟨[], [], 0⟩ ⟨"good", "TG", "ip"⟩ =
      { db := (saveDeviceAccessLogs [] ⟨"good", "TG", "ip"⟩ [exGoodLog] "now" exFmt).1
        trail := [] ++
          [⟨"logs_from_device", some "good",
            (saveDeviceAccessLogs [] ⟨"good", "TG", "ip"⟩ [exGoodLog] "now" exFmt).2,
            "success", none, "now"⟩]
        totalLogsSaved :=
          0 + (saveDeviceAccessLogs [] ⟨"good", "TG", "ip"⟩ [exGoodLog] "now" exFmt).2 } := by
  have h := syncLogsFromDevices_isolates_failures
    (fun d _ _ => if d.name == "bad" then .error "boom" else .ok [exGoodLog])
    (fun _ => some 0) exFmt 7 "now" [] [⟨"good", "TG", "ip"⟩] ⟨"bad", "TB", "ip"⟩ "boom"
    ⟨[], [], 0⟩ ⟨[], [], 0⟩ ⟨"good", "TG", "ip"⟩ [exGoodLog]
    (fun _ => rfl) rfl (by decide)
  exact h

/-- C3 counterexample: a raw log with CreateTime 1 and a non-numeric Method
string is not persisted at all by saveDeviceAccessLogs — int() raises and
the per-record handler drops the record — contradicting the claim that the
field is treated as 0 and the entry still persisted. -/
theorem saveDeviceAccessLogs_nonnumeric_not_persisted :
    (saveDeviceAccessLogs [] exDevice [exBadMethodLog] "2024-01-01 00:00:00" exFmt).1 = [] ∧
    (saveDeviceAccessLogs [] exDevice [exBadMethodLog] "2024-01-01 00:00:00" exFmt).2 = 0 :=
  ⟨rfl, rfl⟩

/-- A raw log whose Method value does not parse as an integer raises inside
the per-record try block before the insert, for any generated id. -/
theorem mkRow_nonnumeric_method (client : DeviceInfo) (nowStr : String)
    (fmt : Int → String) (idStr : String) (log : RawLog) (m : String)
    (hm : pyGet log "Method" = some m) (hnum : pyInt m = none) :
    mkRow client nowStr fmt idStr log = none := by
  have hi : intField log "Method" = none := by
    unfold intField
    rw [hm]
    exact hnum
  unfold mkRow
  rw [hi]
  cases h : rowDatetime nowStr fmt log <;> rfl

/-- A raw log whose Status value does not parse as an integer raises inside
the per-record try block before the insert as well, for any generated id
and regardless of how the Method field fares. -/
theorem mkRow_nonnumeric_status (client : DeviceInfo) (nowStr : String)
    (fmt : Int → String) (idStr : String) (log : RawLog) (s : String)
    (hs : pyGet log "Status" = some s) (hnum : pyInt s = none) :
    mkRow client nowStr fmt idStr log = none := by
  have hi : intField log "Status" = none := by
    unfold intField
    rw [hs]
    exact hnum
  unfold mkRow
  rw [hi]
  cases h : rowDatetime nowStr fmt log
  · rfl
  · cases h2 : intField log "Method" <;> rfl

/-- saveDeviceAccessLogs is the log-loop fold also on the empty batch. -/
theorem saveDeviceAccessLogs_eq_foldl (db : List LogRow) (client : DeviceInfo)
    (logs : List RawLog) (nowStr : String) (fmt : Int → String) :
    saveDeviceAccessLogs db client logs nowStr fmt =
      logs.foldl (saveStep client nowStr fmt) (db, 0) := by
  unfold saveDeviceAccessLogs
  cases logs <;> simp

/-- C3 amended: a raw log whose Method or Status field is a non-numeric
string is skipped entirely — the per-record exception handler drops that
record, the batch result is exactly the result without it — while a
record with the Method and Status keys absent defaults both integer
fields to 0 and is built for insertion. -/
theorem saveDeviceAccessLogs_nonnumeric_skips_record (db : List LogRow)
    (client : DeviceInfo) (nowStr : String) (fmt : Int → String)
    (pre post : List RawLog) (bad : RawLog)
    (log2 : RawLog) (id2 : String)
    (hbad : (∃ m, pyGet bad "Method" = some m ∧ pyInt m = none) ∨
      (∃ s, pyGet bad "Status" = some s ∧ pyInt s = none))
    (hct2 : pyGet log2 "CreateTime" = none)
    (hm2 : pyGet log2 "Method" = none) (hs2 : pyGet log2 "Status" = none) :
    saveDeviceAccessLogs db client (pre ++ bad :: post) nowStr fmt =
      saveDeviceAccessLogs db client (pre ++ post) nowStr fmt ∧
    ∃ r, mkRow client nowStr fmt id2 log2 = some r ∧
      r.verifysource = 0 ∧ r.verifystatus = 0 := by
  constructor
  · have hnone : ∀ idStr, mkRow client nowStr fmt idStr bad = none := by
      intro idStr
      rcases hbad with ⟨m, hm, hnum⟩ | ⟨s, hs, hnum⟩
      · exact mkRow_nonnumeric_method client nowStr fmt idStr bad m hm hnum
      · exact mkRow_nonnumeric_status client nowStr fmt idStr bad s hs hnum
    have hstep : ∀ st, saveStep client nowStr fmt st bad = st := by
      intro st
      unfold saveStep
      rw [hnone]
    rw [saveDeviceAccessLogs_eq_foldl, saveDeviceAccessLogs_eq_foldl,
      List.foldl_append, List.foldl_append, List.foldl_cons, hstep]
  · have hdt : rowDatetime nowStr fmt log2 = some nowStr := by
      unfold rowDatetime
      rw [hct2]
    have hif : intField log2 "Method" = some 0 := by
      unfold intField
      rw [hm2]
    have his : intField log2 "Status" = some 0 := by
      unfold intField
      rw [hs2]
    unfold mkRow
    rw [hdt, hif, his]
    exact ⟨_, rfl, rfl, rfl⟩

/-- Witness for C3 amended at concrete batches, one per disjunct: the
record with the non-numeric Method is dropped and so is the record with
the non-numeric Status, the surrounding records survive both times; a
record lacking Method and Status maps to a row with both verify
fields 0. -/
theorem saveDeviceAccessLogs_nonnumeric_skips_record_witness :
    (saveDeviceAccessLogs [] exDevice ([exGoodLog] ++ exBadMethodLog :: [[("CreateTime", "2"), ("CardNo", "C3")]]) "2024-01-01 00:00:00" exFmt =
      saveDeviceAccessLogs [] exDevice ([exGoodLog] ++ [[("CreateTime", "2"), ("CardNo", "C3")]]) "2024-01-01 00:00:00" exFmt) ∧
    (saveDeviceAccessLogs [] exDevice ([exGoodLog] ++ exBadStatusLog :: [[("CreateTime", "2"), ("CardNo", "C3")]]) "2024-01-01 00:00:00" exFmt =
      saveDeviceAccessLogs [] exDevice ([exGoodLog] ++ [[("CreateTime", "2"), ("CardNo", "C3")]]) "2024-01-01 00:00:00" exFmt) ∧
    ∃ r, mkRow exDevice "2024-01-01 00:00:00" exFmt "log-0" [("CardNo", "C9")] = some r ∧
      r.verifysource = 0 ∧ r.verifystatus = 0 := by
  have hmeth := saveDeviceAccessLogs_nonnumeric_skips_record [] exDevice
    "2024-01-01 00:00:00" exFmt
    [exGoodLog] [[("CreateTime", "2"), ("CardNo", "C3")]] exBadMethodLog
    [("CardNo", "C9")] "log-0" (Or.inl ⟨"abc", rfl, rfl⟩) rfl rfl rfl
  have hstat := saveDeviceAccessLogs_nonnumeric_skips_record [] exDevice
    "2024-01-01 00:00:00" exFmt
    [exGoodLog] [[("CreateTime", "2"), ("CardNo", "C3")]] exBadStatusLog
    [("CardNo", "C9")] "log-0" (Or.inr ⟨"xyz", rfl, rfl⟩) rfl rfl rfl
  exact ⟨hmeth.1, hstat.1, hmeth.2⟩

/-- C6: with a fully given (truthy) time window every user returned by
getUnsyncedUsers, from the student source and from the employee source
alike, carries a registrationDate between the formatted window bounds;
with the window omitted both sources are returned in full; and a source
table that does not exist behaves exactly like an empty table instead of
raising. -/
theorem getUnsyncedUsers_window (db : CmsDb) (fmt : Int → String) (s e : Int)
    (stw enw : Option Int) (hs : s ≠ 0) (he : e ≠ 0) :
    (∀ u ∈ getUnsyncedUsers db fmt (some s) (some e),
      fmt s ≤ u.registrationDate ∧ u.registrationDate ≤ fmt e) ∧
    (getUnsyncedUsers db fmt none none =
      (match db.student with
       | none => []
       | some rows => rows.map rowToStudentUser) ++
      (match db.employee with
       | none => []
       | some rows => rows.map rowToEmployeeUser)) ∧
    (getUnsyncedUsers { student := none, employee := db.employee } fmt stw enw =
      getUnsyncedUsers { student := some [], employee := db.employee } fmt stw enw) ∧
    (getUnsyncedUsers { student := db.student, employee := none } fmt stw enw =
      getUnsyncedUsers { student := db.student, employee := some [] } fmt stw enw) := by
  have hts : truthy (some s) = true := by simp [truthy, hs]
  have hte : truthy (some e) = true := by simp [truthy, he]
  refine ⟨?_, ?_, ?_, ?_⟩
  · intro u hu
    unfold getUnsyncedUsers at hu
    rcases List.mem_append.mp hu with h | h
    · rcases hdb : db.student with _ | rows
      · rw [hdb] at h
        simp at h
      · rw [hdb] at h
        rcases List.mem_map.mp h with ⟨r, hr, rfl⟩
        unfold studentSelect at hr
        rw [hts, hte] at hr
        simp only [Bool.and_self, if_true] at hr
        have hp := (List.mem_filter.mp hr).2
        simp only [Option.getD_some, Bool.and_eq_true, decide_eq_true_eq] at hp
        exact hp
    · rcases hdb : db.employee with _ | rows
      · rw [hdb] at h
        simp at h
      · rw [hdb] at h
        rcases List.mem_map.mp h with ⟨r, hr, rfl⟩
        unfold employeeSelect at hr
        rw [hts, hte] at hr
        simp only [Bool.and_self, if_true] at hr
        have hp := (List.mem_filter.mp hr).2
        simp only [Option.getD_some, Bool.and_eq_true, decide_eq_true_eq] at hp
        exact hp
  · unfold getUnsyncedUsers studentSelect employeeSelect
    simp [truthy]
  · unfold getUnsyncedUsers studentSelect employeeSelect
    cases truthy stw <;> cases truthy enw <;> simp
  · unfold getUnsyncedUsers studentSelect employeeSelect
    cases truthy stw <;> cases truthy enw <;> simp

/-- Witness for C6 at a concrete database, formatter and window. -/
theorem getUnsyncedUsers_window_witness :
    (∀ u ∈ getUnsyncedUsers exCms exDateFmt (some 1) (some 2),
      exDateFmt 1 ≤ u.registrationDate ∧ u.registrationDate ≤ exDateFmt 2) ∧
    (getUnsyncedUsers exCms exDateFmt none none =
      (match exCms.student with
       | none => []
       | some rows => rows.map rowToStudentUser) ++
      (match exCms.employee with
       | none => []
       | some rows => rows.map rowToEmployeeUser)) ∧
    (getUnsyncedUsers { student := none, employee := exCms.employee } exDateFmt (some 5) none =
      getUnsyncedUsers { student := some [], employee := exCms.employee } exDateFmt (some 5) none) ∧
    (getUnsyncedUsers { student := exCms.student, employee := none } exDateFmt (some 5) none =
      getUnsyncedUsers { student := exCms.student, employee := some [] } exDateFmt (some 5) none) :=
  getUnsyncedUsers_window exCms exDateFmt 1 2 (some 5) none (by decide) (by decide)

/-- C9: with startTime given and truthy but endTime absent the student
source is filtered to registration dates at or after the formatted start
while the employee source is returned unfiltered; and a window bound of 0
is falsy, so it selects the same branch as an absent bound and disables
the corresponding filtering. -/
theorem getUnsyncedUsers_startOnly_and_zero (db : CmsDb) (fmt : Int → String)
    (s : Int) (stw enw : Option Int) (hs : s ≠ 0) :
    (getUnsyncedUsers db fmt (some s) none =
      (match db.student with
       | none => []
       | some rows =>
         (rows.filter (fun r => decide (fmt s ≤ r.registration_date))).map rowToStudentUser) ++
      (match db.employee with
       | none => []
       | some rows => rows.map rowToEmployeeUser)) ∧
    (getUnsyncedUsers db fmt (some 0) enw = getUnsyncedUsers db fmt none enw) ∧
    (getUnsyncedUsers db fmt stw (some 0) = getUnsyncedUsers db fmt stw none) := by
  have hts : truthy (some s) = true := by simp [truthy, hs]
  refine ⟨?_, ?_, ?_⟩
  · unfold getUnsyncedUsers studentSelect employeeSelect
    rw [hts]
    simp [truthy]
  · unfold getUnsyncedUsers studentSelect employeeSelect
    simp [truthy]
  · unfold getUnsyncedUsers studentSelect employeeSelect
    cases truthy stw <;> simp [truthy]

/-- Witness for C9 at a concrete database, formatter and bounds. -/
theorem getUnsyncedUsers_startOnly_and_zero_witness :
    (getUnsyncedUsers exCms exDateFmt (some 1) none =
      (match exCms.student with
       | none => []
       | some rows =>
         (rows.filter (fun r => decide (exDateFmt 1 ≤ r.registration_date))).map rowToStudentUser) ++
      (match exCms.employee with
       | none => []
       | some rows => rows.map rowToEmployeeUser)) ∧
    (getUnsyncedUsers exCms exDateFmt (some 0) (some 9) =
      getUnsyncedUsers exCms exDateFmt none (some 9)) ∧
    (getUnsyncedUsers exCms exDateFmt (some 1) (some 0) =
      getUnsyncedUsers exCms exDateFmt (some 1) none) :=
  getUnsyncedUsers_startOnly_and_zero exCms exDateFmt 1 (some 1) (some 9) (by decide)

/-- The accesslogs uniqueness invariant: no two stored rows share the
(terminalid, datetime, cardid) dedup key. -/
def KeysOk (db : List LogRow) : Prop :=
  db.Pairwise (fun a b => sameKey a b = false)

/-- mkRow only ever uses the generated id for the id column: the produced
row for a different id differs in the id column alone, and whether a row
is produced at all does not depend on the id. -/
theorem mkRow_id (client : DeviceInfo) (nowStr : String) (fmt : Int → String)
    (log : RawLog) (i1 i2 : String) :
    mkRow client nowStr fmt i1 log =
      (mkRow client nowStr fmt i2 log).map (fun r => { r with id := i1 }) := by
  unfold mkRow
  cases hdt : rowDatetime nowStr fmt log <;>
    cases h1 : intField log "Method" <;>
    cases h2 : intField log "Status" <;> rfl

theorem any_mono_extends {db db2 : List LogRow} {p : LogRow → Bool}
    (h : db <+: db2) (hp : db.any p = true) : db2.any p = true := by
  rcases List.any_eq_true.mp hp with ⟨r, hr, hpr⟩
  exact List.any_eq_true.mpr ⟨r, h.subset hr, hpr⟩

/-- The dedup key of every row mkRow can produce for this raw log is
already present in db. -/
def keyPresent (client : DeviceInfo) (nowStr : String) (fmt : Int → String)
    (db : List LogRow) (log : RawLog) : Prop :=
  ∀ idStr row, mkRow client nowStr fmt idStr log = some row →
    db.any (fun r => sameKey r row) = true

theorem keyPresent_mono {client : DeviceInfo} {nowStr : String}
    {fmt : Int → String} {db db2 : List LogRow} {log : RawLog}
    (h : db <+: db2) (hp : keyPresent client nowStr fmt db log) :
    keyPresent client nowStr fmt db2 log := by
  intro idStr row hrow
  exact any_mono_extends h (hp idStr row hrow)

theorem keyPresent_of_any {client : DeviceInfo} {nowStr : String}
    {fmt : Int → String} {db : List LogRow} {log : RawLog} {i0 : String}
    {row0 : LogRow} (hmk : mkRow client nowStr fmt i0 log = some row0)
    (hany : db.any (fun r => sameKey r row0) = true) :
    keyPresent client nowStr fmt db log := by
  intro idStr row hrow
  rw [mkRow_id client nowStr fmt log idStr i0, hmk] at hrow
  have h2 := Option.some.inj hrow
  rw [← h2]
  exact hany

theorem saveStep_none (client : DeviceInfo) (nowStr : String)
    (fmt : Int → String) (st : List LogRow × Nat) (log : RawLog)
    (hmk : mkRow client nowStr fmt ("log-" ++ toString st.1.length) log = none) :
    saveStep client nowStr fmt st log = st := by
  unfold saveStep
  rw [hmk]

theorem saveStep_dup (client : DeviceInfo) (nowStr : String)
    (fmt : Int → String) (st : List LogRow × Nat) (log : RawLog) (row : LogRow)
    (hmk : mkRow client nowStr fmt ("log-" ++ toString st.1.length) log = some row)
    (hdup : st.1.any (fun r => sameKey r row) = true) :
    saveStep client nowStr fmt st log = st := by
  unfold saveStep
  rw [hmk]
  simp [hdup]

theorem saveStep_ins (client : DeviceInfo) (nowStr : String)
    (fmt : Int → String) (st : List LogRow × Nat) (log : RawLog) (row : LogRow)
    (hmk : mkRow client nowStr fmt ("log-" ++ toString st.1.length) log = some row)
    (hdup : st.1.any (fun r => sameKey r row) = false) :
    saveStep client nowStr fmt st log = (st.1 ++ [row], st.2 + 1) := by
  unfold saveStep
  rw [hmk]
  simp [hdup]

theorem saveStep_extends (client : DeviceInfo) (nowStr : String)
    (fmt : Int → String) (st : List LogRow × Nat) (log : RawLog) :
    st.1 <+: (saveStep client nowStr fmt st log).1 := by
  rcases hmk : mkRow client nowStr fmt ("log-" ++ toString st.1.length) log with _ | row
  · rw [saveStep_none client nowStr fmt st log hmk]
  · cases hdup : st.1.any (fun r => sameKey r row)
    · rw [saveStep_ins client nowStr fmt st log row hmk hdup]
      exact List.prefix_append _ _
    · rw [saveStep_dup client nowStr fmt st log row hmk hdup]

theorem saveFold_extends (client : DeviceInfo) (nowStr : String)
    (fmt : Int → String) :
    ∀ (logs : List RawLog) (st : List LogRow × Nat),
      st.1 <+: (List.foldl (saveStep client nowStr fmt) st logs).1 := by
  intro logs
  induction logs with
  | nil => intro st; exact List.prefix_refl _
  | cons l ls ih =>
    intro st
    rw [List.foldl_cons]
    exact (saveStep_extends client nowStr fmt st l).trans (ih _)

theorem saveStep_keysOk (client : DeviceInfo) (nowStr : String)
    (fmt : Int → String) (st : List LogRow × Nat) (log : RawLog)
    (h : KeysOk st.1) : KeysOk (saveStep client nowStr fmt st log).1 := by
  rcases hmk : mkRow client nowStr fmt ("log-" ++ toString st.1.length) log with _ | row
  · rw [saveStep_none client nowStr fmt st log hmk]
    exact h
  · cases hdup : st.1.any (fun r => sameKey r row)
    · rw [saveStep_ins client nowStr fmt st log row hmk hdup]
      unfold KeysOk
      rw [List.pairwise_append]
      refine ⟨h, List.pairwise_singleton _ _, ?_⟩
      intro a ha b hb
      have hb2 : b = row := by simpa using hb
      subst hb2
      have := List.any_eq_false.mp hdup a ha
      simpa using this
    · rw [saveStep_dup client nowStr fmt st log row hmk hdup]
      exact h

theorem saveFold_keysOk (client : DeviceInfo) (nowStr : String)
    (fmt : Int → String) :
    ∀ (logs : List RawLog) (st : List LogRow × Nat), KeysOk st.1 →
      KeysOk (List.foldl (saveStep client nowStr fmt) st logs).1 := by
  intro logs
  induction logs with
  | nil => intro st h; exact h
  | cons l ls ih =>
    intro st h
    rw [List.foldl_cons]
    exact ih _ (saveStep_keysOk client nowStr fmt st l h)

theorem saveStep_count (client : DeviceInfo) (nowStr : String)
    (fmt : Int → String) (st : List LogRow × Nat) (log : RawLog) :
    (saveStep client nowStr fmt st log).1.length + st.2 =
      (saveStep client nowStr fmt st log).2 + st.1.length := by
  rcases hmk : mkRow client nowStr fmt ("log-" ++ toString st.1.length) log with _ | row
  · rw [saveStep_none client nowStr fmt st log hmk]
    omega
  · cases hdup : st.1.any (fun r => sameKey r row)
    · rw [saveStep_ins client nowStr fmt st log row hmk hdup]
      simp only [List.length_append, List.length_cons, List.length_nil]
      omega
    · rw [saveStep_dup client nowStr fmt st log row hmk hdup]
      omega

theorem saveFold_count (client : DeviceInfo) (nowStr : String)
    (fmt : Int → String) :
    ∀ (logs : List RawLog) (st : List LogRow × Nat),
      (List.foldl (saveStep client nowStr fmt) st logs).1.length + st.2 =
        (List.foldl (saveStep client nowStr fmt) st logs).2 + st.1.length := by
  intro logs
  induction logs with
  | nil =>
    intro st
    rw [List.foldl_nil]
    omega
  | cons l ls ih =>
    intro st
    rw [List.foldl_cons]
    have h1 := saveStep_count client nowStr fmt st l
    have h2 := ih (saveStep client nowStr fmt st l)
    omega

theorem saveFold_presence (client : DeviceInfo) (nowStr : String)
    (fmt : Int → String) :
    ∀ (logs : List RawLog) (st : List LogRow × Nat) (l : RawLog), l ∈ logs →
      keyPresent client nowStr fmt
        (List.foldl (saveStep client nowStr fmt) st logs).1 l := by
  intro logs
  induction logs with
  | nil => intro st l hl; exact absurd hl (List.not_mem_nil l)
  | cons l0 ls ih =>
    intro st l hl
    rw [List.foldl_cons]
    rcases List.mem_cons.mp hl with rfl | hl2
    · have hpre : (saveStep client nowStr fmt st l).1 <+:
          (List.foldl (saveStep client nowStr fmt) (saveStep client nowStr fmt st l) ls).1 :=
        saveFold_extends client nowStr fmt ls _
      refine keyPresent_mono hpre ?_
      rcases hmk : mkRow client nowStr fmt ("log-" ++ toString st.1.length) l with _ | row0
      · rw [saveStep_none client nowStr fmt st l hmk]
        intro idStr row hrow
        rw [mkRow_id client nowStr fmt l idStr ("log-" ++ toString st.1.length), hmk] at hrow
        simp at hrow
      · cases hdup : st.1.any (fun r => sameKey r row0)
        · rw [saveStep_ins client nowStr fmt st l row0 hmk hdup]
          refine keyPresent_of_any hmk ?_
          refine List.any_eq_true.mpr ⟨row0, List.mem_append_right _ (List.mem_singleton_self _), ?_⟩
          unfold sameKey
          simp
        · rw [saveStep_dup client nowStr fmt st l row0 hmk hdup]
          exact keyPresent_of_any hmk hdup
    · exact ih _ l hl2

theorem saveFold_noop (client : DeviceInfo) (nowStr : String)
    (fmt : Int → String) :
    ∀ (logs : List RawLog) (st : List LogRow × Nat),
      (∀ l ∈ logs, keyPresent client nowStr fmt st.1 l) →
      List.foldl (saveStep client nowStr fmt) st logs = st := by
  intro logs
  induction logs with
  | nil => intro st _; rfl
  | cons l0 ls ih =>
    intro st hpres
    rw [List.foldl_cons]
    have hstep : saveStep client nowStr fmt st l0 = st := by
      rcases hmk : mkRow client nowStr fmt ("log-" ++ toString st.1.length) l0 with _ | row0
      · exact saveStep_none client nowStr fmt st l0 hmk
      · exact saveStep_dup client nowStr fmt st l0 row0 hmk
          (hpres l0 (List.mem_cons_self _ _) _ row0 hmk)
    rw [hstep]
    exact ih st (fun l hl => hpres l (List.mem_cons_of_mem _ hl))

/-- C1: saveDeviceAccessLogs preserves the invariant that no two stored
rows share the (terminalid, datetime, cardid) dedup key, returns exactly
the number of rows actually inserted (new length minus old length), and
replaying the same raw batch against the resulting store inserts nothing
and returns 0. -/
theorem saveDeviceAccessLogs_dedup (db : List LogRow) (client : DeviceInfo)
    (logs : List RawLog) (nowStr : String) (fmt : Int → String)
    (h : KeysOk db) :
    KeysOk (saveDeviceAccessLogs db client logs nowStr fmt).1 ∧
    (saveDeviceAccessLogs db client logs nowStr fmt).2 =
      (saveDeviceAccessLogs db client logs nowStr fmt).1.length - db.length ∧
    saveDeviceAccessLogs (saveDeviceAccessLogs db client logs nowStr fmt).1
        client logs nowStr fmt =
      ((saveDeviceAccessLogs db client logs nowStr fmt).1, 0) := by
  rw [saveDeviceAccessLogs_eq_foldl, saveDeviceAccessLogs_eq_foldl]
  refine ⟨saveFold_keysOk client nowStr fmt logs (db, 0) h, ?_, ?_⟩
  · have h1 : (List.foldl (saveStep client nowStr fmt) (db, 0) logs).1.length + 0 =
        (List.foldl (saveStep client nowStr fmt) (db, 0) logs).2 + db.length :=
      saveFold_count client nowStr fmt logs (db, 0)
    have h2 : db.length ≤ (List.foldl (saveStep client nowStr fmt) (db, 0) logs).1.length :=
      (saveFold_extends client nowStr fmt logs (db, 0)).length_le
    omega
  · exact saveFold_noop client nowStr fmt logs _
      (fun l hl => saveFold_presence client nowStr fmt logs (db, 0) l hl)

/-- Witness for C1: a concrete batch holding the same raw record twice is
stored once, the count is the inserted count, and replaying the batch
inserts nothing. -/
theorem saveDeviceAccessLogs_dedup_witness :
    KeysOk (saveDeviceAccessLogs [] exDevice [exGoodLog, exGoodLog] "now" exFmt).1 ∧
    (saveDeviceAccessLogs [] exDevice [exGoodLog, exGoodLog] "now" exFmt).2 =
      (saveDeviceAccessLogs [] exDevice [exGoodLog, exGoodLog] "now" exFmt).1.length -
        ([] : List LogRow).length ∧
    saveDeviceAccessLogs (saveDeviceAccessLogs [] exDevice [exGoodLog, exGoodLog] "now" exFmt).1
        exDevice [exGoodLog, exGoodLog] "now" exFmt =
      ((saveDeviceAccessLogs [] exDevice [exGoodLog, exGoodLog] "now" exFmt).1, 0) :=
  saveDeviceAccessLogs_dedup [] exDevice [exGoodLog, exGoodLog] "now" exFmt
    (List.Pairwise.nil)

theorem maxFold_some :
    ∀ (l : List LogRow) (m : String),
      ∃ m2, l.foldl maxDtStep (some m) = some m2 ∧ m ≤ m2 := by
  intro l
  induction l with
  | nil => intro m; exact ⟨m, rfl, le_refl m⟩
  | cons r rs ih =>
    intro m
    rw [List.foldl_cons]
    have hstep : maxDtStep (some m) r = some (max m r.datetime) := rfl
    rw [hstep]
    rcases ih (max m r.datetime) with ⟨m2, h2, hle⟩
    exact ⟨m2, h2, le_trans (le_max_left m r.datetime) hle⟩

/-- Appending rows to the store can only keep or raise the per-terminal
maximum datetime string. -/
theorem maxDatetime_append (db ex : List LogRow) (term : String) (m : String)
    (h : maxDatetime db term = some m) :
    ∃ m2, maxDatetime (db ++ ex) term = some m2 ∧ m ≤ m2 := by
  unfold maxDatetime at h ⊢
  rw [List.filter_append, List.foldl_append, h]
  exact maxFold_some _ m

theorem getLastSyncedLogTime_none_of_max_none (db : List LogRow)
    (term : String) (parse : String → Option Int)
    (h : maxDatetime db term = none) :
    getLastSyncedLogTime db term parse = none := by
  unfold getLastSyncedLogTime
  rw [h]

theorem getLastSyncedLogTime_some (db : List LogRow) (term : String)
    (parse : String → Option Int) (m : String)
    (h : maxDatetime db term = some m) :
    getLastSyncedLogTime db term parse =
      if m ≠ "" ∧ m ≠ "0000-00-00 00:00:00" then parse m else none := by
  unfold getLastSyncedLogTime
  rw [h]

theorem getLastSyncedLogTime_sentinel (db : List LogRow) (term : String)
    (parse : String → Option Int)
    (h : maxDatetime db term = some "0000-00-00 00:00:00") :
    getLastSyncedLogTime db term parse = none := by
  rw [getLastSyncedLogTime_some db term parse _ h]
  simp

/-- C8: the access-log store is append-only across saveDeviceAccessLogs
(the old rows are a prefix of the new ones), so the per-terminal maximum
stored timestamp never decreases; an absent maximum and the sentinel
never-value map to none; and whenever lastSyncedLogTime yields a value
before and after a save — with the strptime/timestamp conversion
monotone, as it is on this fixed format — the value does not decrease. -/
theorem getLastSyncedLogTime_nondecreasing (db : List LogRow)
    (client : DeviceInfo) (logs : List RawLog) (nowStr : String)
    (fmt : Int → String) (parse : String → Option Int) (term : String)
    (t t2 : Int)
    (hmono : ∀ a b x y, a ≤ b → parse a = some x → parse b = some y → x ≤ y)
    (h1 : getLastSyncedLogTime db term parse = some t)
    (h2 : getLastSyncedLogTime (saveDeviceAccessLogs db client logs nowStr fmt).1
      term parse = some t2) :
    db <+: (saveDeviceAccessLogs db client logs nowStr fmt).1 ∧
    (maxDatetime db term = none → getLastSyncedLogTime db term parse = none) ∧
    (maxDatetime db term = some "0000-00-00 00:00:00" →
      getLastSyncedLogTime db term parse = none) ∧
    t ≤ t2 := by
  have hpre : db <+: (saveDeviceAccessLogs db client logs nowStr fmt).1 := by
    rw [saveDeviceAccessLogs_eq_foldl]
    exact saveFold_extends client nowStr fmt logs (db, 0)
  refine ⟨hpre, fun h => getLastSyncedLogTime_none_of_max_none db term parse h,
    fun h => getLastSyncedLogTime_sentinel db term parse h, ?_⟩
  rcases hmax : maxDatetime db term with _ | m
  · rw [getLastSyncedLogTime_none_of_max_none db term parse hmax] at h1
    exact absurd h1 (by simp)
  · rw [getLastSyncedLogTime_some db term parse m hmax] at h1
    by_cases hc : m ≠ "" ∧ m ≠ "0000-00-00 00:00:00"
    · rw [if_pos hc] at h1
      rcases hpre with ⟨ex, hex⟩
      rcases maxDatetime_append db ex term m hmax with ⟨m2, hm2, hle⟩
      rw [← hex] at h2
      rw [getLastSyncedLogTime_some (db ++ ex) term parse m2 hm2] at h2
      by_cases hc2 : m2 ≠ "" ∧ m2 ≠ "0000-00-00 00:00:00"
      · rw [if_pos hc2] at h2
        exact hmono m m2 t t2 hle h1 h2
      · rw [if_neg hc2] at h2
        exact absurd h2 (by simp)
    · rw [if_neg hc] at h1
      exact absurd h1 (by simp)

/-- Witness for C8 at a concrete one-row store, an empty follow-up batch
and a concrete (constant, hence monotone) parse. -/
theorem getLastSyncedLogTime_nondecreasing_witness :
    exLogDb <+: (saveDeviceAccessLogs exLogDb exDevice [] "now" exFmt).1 ∧
    (maxDatetime exLogDb "T1" = none →
      getLastSyncedLogTime exLogDb "T1" (fun _ => some 0) = none) ∧
    (maxDatetime exLogDb "T1" = some "0000-00-00 00:00:00" →
      getLastSyncedLogTime exLogDb "T1" (fun _ => some 0) = none) ∧
    (0 : Int) ≤ 0 :=
  getLastSyncedLogTime_nondecreasing exLogDb exDevice [] "now" exFmt
    (fun _ => some 0) "T1" 0 0
    (by
      intro a b x y hab hx hy
      injection hx with hx2
      injection hy with hy2
      omega)
    rfl rfl

theorem mark_of_find_none (L : List TemplateRow) (tid : Nat) (dev : String)
    (h : findTemplate L tid = none) :
    markFaceTemplateSynced L tid dev = L := by
  unfold markFaceTemplateSynced
  rw [h]

theorem mark_of_mem (L : List TemplateRow) (tid : Nat) (dev : String)
    (r : TemplateRow) (h : findTemplate L tid = some r)
    (hmem : dev ∈ r.syncedDevices) :
    markFaceTemplateSynced L tid dev = L := by
  unfold markFaceTemplateSynced
  rw [h]
  simp [hmem]

theorem mark_of_not_mem (L : List TemplateRow) (tid : Nat) (dev : String)
    (r : TemplateRow) (h : findTemplate L tid = some r)
    (hmem : dev ∉ r.syncedDevices) :
    markFaceTemplateSynced L tid dev =
      L.map (fun q =>
        if q.id == tid then { q with syncedDevices := r.syncedDevices ++ [dev] } else q) := by
  unfold markFaceTemplateSynced
  rw [h]
  simp [hmem]

theorem findTemplate_map (L : List TemplateRow) (f : TemplateRow → TemplateRow)
    (hf : ∀ q, (f q).id = q.id) (tid : Nat) :
    findTemplate (L.map f) tid = (findTemplate L tid).map f := by
  induction L with
  | nil => rfl
  | cons q rest ih =>
    unfold findTemplate at ih ⊢
    rw [List.map_cons]
    cases hq : (q.id == tid)
    · have h1 : List.find? (fun r => r.id == tid) (f q :: List.map f rest) =
          List.find? (fun r => r.id == tid) (List.map f rest) :=
        List.find?_cons_of_neg _ (by rw [hf q]; simp [hq])
      have h2 : List.find? (fun r => r.id == tid) (q :: rest) =
          List.find? (fun r => r.id == tid) rest :=
        List.find?_cons_of_neg _ (by simp [hq])
      rw [h1, h2]
      exact ih
    · have h1 : List.find? (fun r => r.id == tid) (f q :: List.map f rest) = some (f q) :=
        List.find?_cons_of_pos _ (by rw [hf q]; exact hq)
      have h2 : List.find? (fun r => r.id == tid) (q :: rest) = some q :=
        List.find?_cons_of_pos _ hq
      rw [h1, h2]
      rfl

/-- Full case analysis of one markFaceTemplateSynced call as seen through
row lookup: either every lookup is unchanged, or the looked-up row for the
marked id gained exactly the device name at the end. -/
theorem findTemplate_mark (L : List TemplateRow) (tid : Nat) (dev : String)
    (tid2 : Nat) :
    findTemplate (markFaceTemplateSynced L tid dev) tid2 = findTemplate L tid2 ∨
    (tid2 = tid ∧ ∃ r, findTemplate L tid = some r ∧ dev ∉ r.syncedDevices ∧
      findTemplate (markFaceTemplateSynced L tid dev) tid2 =
        some { r with syncedDevices := r.syncedDevices ++ [dev] }) := by
  rcases h : findTemplate L tid with _ | r
  · left
    rw [mark_of_find_none L tid dev h]
  · by_cases hmem : dev ∈ r.syncedDevices
    · left
      rw [mark_of_mem L tid dev r h hmem]
    · have hfr := List.find?_some h
      have hid : r.id = tid := by simpa using hfr
      have hmap := findTemplate_map L
        (fun q => if q.id == tid then { q with syncedDevices := r.syncedDevices ++ [dev] } else q)
        (fun q => by cases hq : (q.id == tid) <;> simp [hq]) tid2
      by_cases h2 : tid2 = tid
      · right
        subst h2
        refine ⟨rfl, r, rfl, hmem, ?_⟩
        rw [mark_of_not_mem L tid2 dev r h hmem, hmap, h]
        simp [hid]
      · left
        rw [mark_of_not_mem L tid dev r h hmem, hmap]
        rcases hf2 : findTemplate L tid2 with _ | r2
        · rfl
        · have hfr2 := List.find?_some hf2
          have hid2 : r2.id = tid2 := by simpa using hfr2
          have hne : (r2.id == tid) = false := by
            simp [hid2]
            exact h2
          simp [hne]
          intro hcon
          exact absurd (hid2.symm.trans hcon) h2

/-- Ledger growth: row lookup never loses a row and the syncedDevices list
of every looked-up row only gains members. -/
def Grows (A B : List TemplateRow) : Prop :=
  ∀ tid, (findTemplate A tid = none → findTemplate B tid = none) ∧
    (∀ r, findTemplate A tid = some r → ∃ r2, findTemplate B tid = some r2 ∧
      r.syncedDevices ⊆ r2.syncedDevices)

theorem grows_refl (A : List TemplateRow) : Grows A A :=
  fun _ => ⟨fun h => h, fun r h => ⟨r, h, fun _ hx => hx⟩⟩

theorem grows_trans {A B C : List TemplateRow} (h1 : Grows A B)
    (h2 : Grows B C) : Grows A C := by
  intro tid
  constructor
  · intro h
    exact (h2 tid).1 ((h1 tid).1 h)
  · intro r h
    rcases (h1 tid).2 r h with ⟨r2, hb, hsub⟩
    rcases (h2 tid).2 r2 hb with ⟨r3, hc, hsub2⟩
    exact ⟨r3, hc, fun x hx => hsub2 (hsub hx)⟩

theorem grows_mark (L : List TemplateRow) (tid : Nat) (dev : String) :
    Grows L (markFaceTemplateSynced L tid dev) := by
  intro tid2
  rcases findTemplate_mark L tid dev tid2 with heq | ⟨rfl, r, hfind, hmem, heq⟩
  · constructor
    · intro h
      rw [heq, h]
    · intro r h
      exact ⟨r, by rw [heq, h], fun x hx => hx⟩
  · constructor
    · intro h
      rw [h] at hfind
      cases hfind
    · intro r2 h
      rw [h] at hfind
      injection hfind with hf
      subst hf
      exact ⟨_, heq, List.subset_append_left _ _⟩

theorem pushStep_of_mem (enroll : String → Nat → Bool) (dev : String)
    (led : List TemplateRow) (t : TemplateRow) (h : dev ∈ t.syncedDevices) :
    pushTemplateStep enroll dev led t = led := by
  unfold pushTemplateStep
  rw [if_pos h]

theorem pushStep_of_enroll (enroll : String → Nat → Bool) (dev : String)
    (led : List TemplateRow) (t : TemplateRow) (h : dev ∉ t.syncedDevices)
    (he : enroll dev t.id = true) :
    pushTemplateStep enroll dev led t = markFaceTemplateSynced led t.id dev := by
  unfold pushTemplateStep
  rw [if_neg h, he]
  rfl

theorem pushStep_of_fail (enroll : String → Nat → Bool) (dev : String)
    (led : List TemplateRow) (t : TemplateRow) (h : dev ∉ t.syncedDevices)
    (he : enroll dev t.id = false) :
    pushTemplateStep enroll dev led t = led := by
  unfold pushTemplateStep
  rw [if_neg h, he]
  rfl

theorem grows_pushStep (enroll : String → Nat → Bool) (dev : String)
    (led : List TemplateRow) (t : TemplateRow) :
    Grows led (pushTemplateStep enroll dev led t) := by
  by_cases h : dev ∈ t.syncedDevices
  · rw [pushStep_of_mem enroll dev led t h]
    exact grows_refl led
  · cases he : enroll dev t.id
    · rw [pushStep_of_fail enroll dev led t h he]
      exact grows_refl led
    · rw [pushStep_of_enroll enroll dev led t h he]
      exact grows_mark led t.id dev

theorem grows_pass (enroll : String → Nat → Bool) (dev : String) :
    ∀ (snapshot : List TemplateRow) (led : List TemplateRow),
      Grows led (syncTemplatesToDevice enroll snapshot dev led) := by
  intro snapshot
  induction snapshot with
  | nil => intro led; exact grows_refl led
  | cons t rest ih =>
    intro led
    unfold syncTemplatesToDevice at ih ⊢
    rw [List.foldl_cons]
    exact grows_trans (grows_pushStep enroll dev led t) (ih _)

theorem grows_flow_fold (enroll : String → Nat → Bool) (L0 : List TemplateRow) :
    ∀ (devs : List String) (led : List TemplateRow),
      Grows led (devs.foldl (fun l2 dv => syncTemplatesToDevice enroll L0 dv l2) led) := by
  intro devs
  induction devs with
  | nil => intro led; exact grows_refl led
  | cons d ds ih =>
    intro led
    rw [List.foldl_cons]
    exact grows_trans (grows_pass enroll d L0 led) (ih _)

/-- Every looked-up row keeps a duplicate-free syncedDevices list. -/
def SyncedNodup (A : List TemplateRow) : Prop :=
  ∀ tid r, findTemplate A tid = some r → r.syncedDevices.Nodup

theorem syncedNodup_mark (L : List TemplateRow) (tid : Nat) (dev : String)
    (h : SyncedNodup L) : SyncedNodup (markFaceTemplateSynced L tid dev) := by
  intro tid2 r2 hfind2
  rcases findTemplate_mark L tid dev tid2 with heq | ⟨rfl, r, hfind, hmem, heq⟩
  · rw [heq] at hfind2
    exact h tid2 r2 hfind2
  · rw [heq] at hfind2
    injection hfind2 with hf
    rw [← hf]
    have hnd := h tid2 r hfind
    simp [List.nodup_append, hnd, hmem]

theorem syncedNodup_pushStep (enroll : String → Nat → Bool) (dev : String)
    (led : List TemplateRow) (t : TemplateRow) (h : SyncedNodup led) :
    SyncedNodup (pushTemplateStep enroll dev led t) := by
  by_cases hm : dev ∈ t.syncedDevices
  · rw [pushStep_of_mem enroll dev led t hm]
    exact h
  · cases he : enroll dev t.id
    · rw [pushStep_of_fail enroll dev led t hm he]
      exact h
    · rw [pushStep_of_enroll enroll dev led t hm he]
      exact syncedNodup_mark led t.id dev h

theorem syncedNodup_pass (enroll : String → Nat → Bool) (dev : String) :
    ∀ (snapshot led : List TemplateRow), SyncedNodup led →
      SyncedNodup (syncTemplatesToDevice enroll snapshot dev led) := by
  intro snapshot
  induction snapshot with
  | nil => intro led h; exact h
  | cons t rest ih =>
    intro led h
    unfold syncTemplatesToDevice at ih ⊢
    rw [List.foldl_cons]
    exact ih _ (syncedNodup_pushStep enroll dev led t h)

theorem syncedNodup_flow_fold (enroll : String → Nat → Bool)
    (L0 : List TemplateRow) :
    ∀ (devs : List String) (led : List TemplateRow), SyncedNodup led →
      SyncedNodup (devs.foldl (fun l2 dv => syncTemplatesToDevice enroll L0 dv l2) led) := by
  intro devs
  induction devs with
  | nil => intro led h; exact h
  | cons d ds ih =>
    intro led h
    rw [List.foldl_cons]
    exact ih _ (syncedNodup_pass enroll d L0 led h)

/-- A device name present in the looked-up row for an id stays present
across any growth of the ledger. -/
theorem find_mem_mono {A B : List TemplateRow} (hg : Grows A B) (tid : Nat)
    (dev : String)
    (hA : ∀ r, findTemplate A tid = some r → dev ∈ r.syncedDevices) :
    ∀ r2, findTemplate B tid = some r2 → dev ∈ r2.syncedDevices := by
  intro r2 hB
  rcases hf : findTemplate A tid with _ | r
  · rw [(hg tid).1 hf] at hB
    cases hB
  · rcases (hg tid).2 r hf with ⟨r3, h3, hsub⟩
    rw [h3] at hB
    injection hB with hB2
    subst hB2
    exact hsub (hA r hf)

/-- The looked-up row for the marked id after a markFaceTemplateSynced
call: unchanged when the device is already present, otherwise with the
device name appended. -/
theorem findTemplate_mark_self (L : List TemplateRow) (tid : Nat)
    (dev : String) (r : TemplateRow) (h : findTemplate L tid = some r) :
    findTemplate (markFaceTemplateSynced L tid dev) tid =
      some (if dev ∈ r.syncedDevices then r
            else { r with syncedDevices := r.syncedDevices ++ [dev] }) := by
  have hfr := List.find?_some h
  have hid : r.id = tid := by simpa using hfr
  by_cases hmem : dev ∈ r.syncedDevices
  · rw [mark_of_mem L tid dev r h hmem, h]
    simp [hmem]
  · rw [mark_of_not_mem L tid dev r h hmem]
    rw [findTemplate_map L _ (fun q => by cases hq : (q.id == tid) <;> simp [hq]) tid, h]
    simp [hid, hmem]

theorem syncTemplatesToDevice_cons (enroll : String → Nat → Bool)
    (dev : String) (t0 : TemplateRow) (rest : List TemplateRow)
    (led : List TemplateRow) :
    syncTemplatesToDevice enroll (t0 :: rest) dev led =
      syncTemplatesToDevice enroll rest dev (pushTemplateStep enroll dev led t0) := by
  unfold syncTemplatesToDevice
  rw [List.foldl_cons]

/-- After the per-device template loop, every snapshot template for which
the device acknowledged enrollment has the device name in its looked-up
ledger row — the skip branch relies on the snapshot list being contained
in the live row, which ledger growth from the snapshot state provides. -/
theorem pass_devDone (enroll : String → Nat → Bool) (dev : String)
    (L0 : List TemplateRow) :
    ∀ (snapshot : List TemplateRow) (led : List TemplateRow),
      (∀ t ∈ snapshot, findTemplate L0 t.id = some t) → Grows L0 led →
      ∀ t ∈ snapshot, enroll dev t.id = true →
      ∀ r, findTemplate (syncTemplatesToDevice enroll snapshot dev led) t.id = some r →
        dev ∈ r.syncedDevices := by
  intro snapshot
  induction snapshot with
  | nil => intro led _ _ t ht; cases ht
  | cons t0 rest ih =>
    intro led hsnap hgrow t ht he
    rw [syncTemplatesToDevice_cons]
    have hgrow1 : Grows L0 (pushTemplateStep enroll dev led t0) :=
      grows_trans hgrow (grows_pushStep enroll dev led t0)
    rcases List.mem_cons.mp ht with rfl | ht2
    · have hbase : ∀ r, findTemplate (pushTemplateStep enroll dev led t) t.id = some r →
          dev ∈ r.syncedDevices := by
        by_cases hm : dev ∈ t.syncedDevices
        · rw [pushStep_of_mem enroll dev led t hm]
          intro r hr
          have hsnap0 : findTemplate L0 t.id = some t := hsnap t (List.mem_cons_self t rest)
          rcases (hgrow t.id).2 t hsnap0 with ⟨rl, hrl, hsub⟩
          rw [hrl] at hr
          injection hr with hr2
          subst hr2
          exact hsub hm
        · rw [pushStep_of_enroll enroll dev led t hm he]
          intro r hr
          rcases hfl : findTemplate led t.id with _ | rl
          · rw [mark_of_find_none led t.id dev hfl, hfl] at hr
            cases hr
          · rw [findTemplate_mark_self led t.id dev rl hfl] at hr
            injection hr with hr2
            subst hr2
            by_cases hmem2 : dev ∈ rl.syncedDevices
            · simp [hmem2]
            · simp [hmem2]
      exact find_mem_mono (grows_pass enroll dev rest (pushTemplateStep enroll dev led t))
        t.id dev hbase
    · exact ih _ (fun q hq => hsnap q (List.mem_cons_of_mem t0 hq)) hgrow1 t ht2 he

/-- After the whole device loop, every device that acknowledged a template
enrollment appears in that template row as looked up in the final ledger. -/
theorem flow_fold_devDone (enroll : String → Nat → Bool) (L0 : List TemplateRow) :
    ∀ (devs : List String) (led : List TemplateRow), Grows L0 led →
      (∀ t ∈ L0, findTemplate L0 t.id = some t) →
      ∀ d ∈ devs, ∀ t ∈ L0, enroll d t.id = true →
      ∀ r, findTemplate
          (devs.foldl (fun l2 dv => syncTemplatesToDevice enroll L0 dv l2) led) t.id = some r →
        d ∈ r.syncedDevices := by
  intro devs
  induction devs with
  | nil => intro led _ _ d hd; cases hd
  | cons d0 ds ih =>
    intro led hgrow hsnap d hd t ht he
    rw [List.foldl_cons]
    have hgrow1 : Grows L0 (syncTemplatesToDevice enroll L0 d0 led) :=
      grows_trans hgrow (grows_pass enroll d0 L0 led)
    rcases List.mem_cons.mp hd with rfl | hd2
    · have hbase := pass_devDone enroll d L0 L0 led hsnap hgrow t ht he
      exact find_mem_mono (grows_flow_fold enroll L0 ds _) t.id d hbase
    · exact ih _ hgrow1 hsnap d hd2 t ht he

theorem mark_ids (L : List TemplateRow) (tid : Nat) (dev : String) :
    (markFaceTemplateSynced L tid dev).map (fun r => r.id) = L.map (fun r => r.id) := by
  rcases h : findTemplate L tid with _ | r
  · rw [mark_of_find_none L tid dev h]
  · by_cases hmem : dev ∈ r.syncedDevices
    · rw [mark_of_mem L tid dev r h hmem]
    · rw [mark_of_not_mem L tid dev r h hmem, List.map_map]
      apply List.map_congr_left
      intro q _
      by_cases hq : q.id = tid
      · simp [hq]
      · simp [hq]

theorem pushStep_ids (enroll : String → Nat → Bool) (dev : String)
    (led : List TemplateRow) (t : TemplateRow) :
    (pushTemplateStep enroll dev led t).map (fun r => r.id) =
      led.map (fun r => r.id) := by
  by_cases hm : dev ∈ t.syncedDevices
  · rw [pushStep_of_mem enroll dev led t hm]
  · cases he : enroll dev t.id
    · rw [pushStep_of_fail enroll dev led t hm he]
    · rw [pushStep_of_enroll enroll dev led t hm he]
      exact mark_ids led t.id dev

theorem pass_ids (enroll : String → Nat → Bool) (dev : String) :
    ∀ (snapshot led : List TemplateRow),
      (syncTemplatesToDevice enroll snapshot dev led).map (fun r => r.id) =
        led.map (fun r => r.id) := by
  intro snapshot
  induction snapshot with
  | nil => intro led; rfl
  | cons t0 rest ih =>
    intro led
    rw [syncTemplatesToDevice_cons, ih, pushStep_ids]

theorem flow_fold_ids (enroll : String → Nat → Bool) (L0 : List TemplateRow) :
    ∀ (devs : List String) (led : List TemplateRow),
      ((devs.foldl (fun l2 dv => syncTemplatesToDevice enroll L0 dv l2) led).map
        (fun r => r.id)) = led.map (fun r => r.id) := by
  intro devs
  induction devs with
  | nil => intro led; rfl
  | cons d0 ds ih =>
    intro led
    rw [List.foldl_cons, ih, pass_ids]

theorem findTemplate_cons_self (q : TemplateRow) (rest : List TemplateRow) :
    findTemplate (q :: rest) q.id = some q := by
  unfold findTemplate
  exact List.find?_cons_of_pos _ (by simp)

theorem findTemplate_cons_ne (q : TemplateRow) (rest : List TemplateRow)
    (tid : Nat) (h : (q.id == tid) = false) :
    findTemplate (q :: rest) tid = findTemplate rest tid := by
  unfold findTemplate
  exact List.find?_cons_of_neg _ (by simp [h])

/-- With the primary key unique, looking a row id up returns that row. -/
theorem findTemplate_self_of_nodup :
    ∀ (L : List TemplateRow), ((L.map (fun r => r.id)).Nodup) →
      ∀ t ∈ L, findTemplate L t.id = some t := by
  intro L
  induction L with
  | nil => intro _ t ht; cases ht
  | cons q rest ih =>
    intro hnd t ht
    rw [List.map_cons, List.nodup_cons] at hnd
    rcases List.mem_cons.mp ht with rfl | ht2
    · exact findTemplate_cons_self t rest
    · have hne : (q.id == t.id) = false := by
        have hmem : t.id ∈ rest.map (fun r => r.id) := List.mem_map.mpr ⟨t, ht2, rfl⟩
        have hq : q.id ≠ t.id := fun he => hnd.1 (he ▸ hmem)
        simp [hq]
      rw [findTemplate_cons_ne q rest t.id hne]
      exact ih hnd.2 t ht2

theorem pass_noop (enroll : String → Nat → Bool) (dev : String) :
    ∀ (snapshot led : List TemplateRow),
      (∀ t ∈ snapshot, enroll dev t.id = true → dev ∈ t.syncedDevices) →
      syncTemplatesToDevice enroll snapshot dev led = led := by
  intro snapshot
  induction snapshot with
  | nil => intro led _; rfl
  | cons t0 rest ih =>
    intro led h
    rw [syncTemplatesToDevice_cons]
    have hstep : pushTemplateStep enroll dev led t0 = led := by
      by_cases hm : dev ∈ t0.syncedDevices
      · exact pushStep_of_mem enroll dev led t0 hm
      · cases he : enroll dev t0.id
        · exact pushStep_of_fail enroll dev led t0 hm he
        · exact absurd (h t0 (List.mem_cons_self t0 rest) he) hm
    rw [hstep]
    exact ih led (fun q hq hqe => h q (List.mem_cons_of_mem t0 hq) hqe)

theorem flow_fold_noop (enroll : String → Nat → Bool) (L1 : List TemplateRow) :
    ∀ (devs : List String) (led : List TemplateRow),
      (∀ d ∈ devs, ∀ t ∈ L1, enroll d t.id = true → d ∈ t.syncedDevices) →
      devs.foldl (fun l2 dv => syncTemplatesToDevice enroll L1 dv l2) led = led := by
  intro devs
  induction devs with
  | nil => intro led _; rfl
  | cons d0 ds ih =>
    intro led h
    rw [List.foldl_cons,
      pass_noop enroll d0 L1 led (fun t ht hte => h d0 (List.mem_cons_self d0 ds) t ht hte)]
    exact ih led (fun d hd t ht hte => h d (List.mem_cons_of_mem d0 hd) t ht hte)

theorem syncUsersToDevices_eq_foldl (enroll : String → Nat → Bool)
    (devices : List String) (L : List TemplateRow) :
    syncUsersToDevices enroll devices L =
      devices.foldl (fun l2 dv => syncTemplatesToDevice enroll L dv l2) L := rfl

/-- C2: markFaceTemplateSynced writes nothing when the device name is
already present and appends it exactly once when absent; consequently,
running the push flow twice over the same template set and device list is
the same as running it once, and in the resulting ledger every successful
device name occurs in each reachable template row exactly once. -/
theorem markFaceTemplateSynced_idempotent_push (enroll : String → Nat → Bool)
    (devices : List String) (L0 : List TemplateRow) (tid : Nat) (dev : String)
    (r : TemplateRow)
    (hids : (L0.map (fun q => q.id)).Nodup)
    (hnd : ∀ t ∈ L0, t.syncedDevices.Nodup)
    (hr : findTemplate L0 tid = some r) :
    (dev ∈ r.syncedDevices → markFaceTemplateSynced L0 tid dev = L0) ∧
    (dev ∉ r.syncedDevices →
      findTemplate (markFaceTemplateSynced L0 tid dev) tid =
        some { r with syncedDevices := r.syncedDevices ++ [dev] }) ∧
    syncUsersToDevices enroll devices (syncUsersToDevices enroll devices L0) =
      syncUsersToDevices enroll devices L0 ∧
    (∀ t ∈ syncUsersToDevices enroll devices L0, ∀ d ∈ devices,
      enroll d t.id = true → t.syncedDevices.count d = 1) := by
  have hsnap : ∀ t ∈ L0, findTemplate L0 t.id = some t :=
    findTemplate_self_of_nodup L0 hids
  have hids1 : (syncUsersToDevices enroll devices L0).map (fun q => q.id) =
      L0.map (fun q => q.id) := by
    rw [syncUsersToDevices_eq_foldl]
    exact flow_fold_ids enroll L0 devices L0
  have hndL1 : ((syncUsersToDevices enroll devices L0).map (fun q => q.id)).Nodup := by
    rw [hids1]
    exact hids
  have hsnd0 : SyncedNodup L0 :=
    fun tid2 r2 hf => hnd r2 (List.mem_of_find?_eq_some hf)
  have hsndL1 : SyncedNodup (syncUsersToDevices enroll devices L0) := by
    rw [syncUsersToDevices_eq_foldl]
    exact syncedNodup_flow_fold enroll L0 devices L0 hsnd0
  have hpost : ∀ t ∈ syncUsersToDevices enroll devices L0, ∀ d ∈ devices,
      enroll d t.id = true → d ∈ t.syncedDevices := by
    intro t ht d hd he
    have hmemid : t.id ∈ L0.map (fun q => q.id) := by
      rw [← hids1]
      exact List.mem_map.mpr ⟨t, ht, rfl⟩
    rcases List.mem_map.mp hmemid with ⟨t0, ht0, hid0⟩
    have hfind1 : findTemplate (syncUsersToDevices enroll devices L0) t.id = some t :=
      findTemplate_self_of_nodup _ hndL1 t ht
    have hdone := flow_fold_devDone enroll L0 devices L0 (grows_refl L0) hsnap
      d hd t0 ht0 (by rw [hid0]; exact he)
    refine hdone t ?_
    rw [hid0, ← syncUsersToDevices_eq_foldl]
    exact hfind1
  refine ⟨fun hm => mark_of_mem L0 tid dev r hr hm, ?_, ?_, ?_⟩
  · intro hm
    rw [findTemplate_mark_self L0 tid dev r hr]
    simp [hm]
  · rw [syncUsersToDevices_eq_foldl enroll devices (syncUsersToDevices enroll devices L0)]
    exact flow_fold_noop enroll (syncUsersToDevices enroll devices L0) devices
      (syncUsersToDevices enroll devices L0)
      (fun d hd t ht hte => hpost t ht d hd hte)
  · intro t ht d hd he
    have hmem := hpost t ht d hd he
    have hnodup : t.syncedDevices.Nodup :=
      hsndL1 t.id t (findTemplate_self_of_nodup _ hndL1 t ht)
    exact List.count_eq_one_of_mem hnodup hmem

/-- Witness for C2 at a concrete two-row ledger, a device list of two and
an always-acknowledging device. -/
theorem markFaceTemplateSynced_idempotent_push_witness :
    ("devA" ∈ (TemplateRow.mk 2 ["devA"]).syncedDevices →
      markFaceTemplateSynced exLedger 2 "devA" = exLedger) ∧
    ("devA" ∉ (TemplateRow.mk 2 ["devA"]).syncedDevices →
      findTemplate (markFaceTemplateSynced exLedger 2 "devA") 2 =
        some (TemplateRow.mk 2 ["devA", "devA"])) ∧
    syncUsersToDevices exEnroll ["devA", "devB"]
        (syncUsersToDevices exEnroll ["devA", "devB"] exLedger) =
      syncUsersToDevices exEnroll ["devA", "devB"] exLedger ∧
    (∀ t ∈ syncUsersToDevices exEnroll ["devA", "devB"] exLedger,
      ∀ d ∈ (["devA", "devB"] : List String),
      exEnroll d t.id = true → t.syncedDevices.count d = 1) :=
  markFaceTemplateSynced_idempotent_push exEnroll ["devA", "devB"] exLedger 2 "devA"
    (TemplateRow.mk 2 ["devA"]) (by decide) (by decide) rfl

end Bridge
